import Mathlib

/-
Verification development for the LGCA OpenMP lattice engine
(src/src/omp_lattice.cpp).  The C++ kernels are shallowly embedded:
bit-packed buffers become total functions from linear indices to booleans,
the `Real` fields become rationals, and the model descriptor (whose tables
live in a header not present in the repository snapshot) becomes a record
of abstract table functions.  Parallel loops are data-parallel with
disjoint outputs, so they are embedded as sequential folds over the index
range.
-/

namespace lgca

/-- Cell kinds, from the `CellType` enum used by `omp_lattice.cpp`. -/
inductive CellType where
  | FLUID : CellType
  | SOLID_NO_SLIP : CellType
  | SOLID_SLIP : CellType
deriving DecidableEq

/-- Lattice gas models, from the `Model` enum used by `omp_lattice.cpp`. -/
inductive Model where
  | HPP : Model
  | FHP_I : Model
  | FHP_II : Model
  | FHP_III : Model
deriving DecidableEq

/-- Modelled from the spec: the per-model descriptor (`ModelDescriptor` /
`ModelDesc`, declared in a header that is not under src/) providing the
direction count, direction maps, lattice vectors, the collision,
bounce-back and bounce-forward lookup tables, and the neighbor offset
tables (built from `dim_x`, `dim_y` at construction).  LUTs act on
`num_dir`-bit pattern words; `collide`, `bounce_back`, `bounce_forward_x`
and `bounce_forward_y` read the input node array and overwrite the output
array with the corresponding LUT image of the input pattern. -/
structure ModelDesc where
  num_dir : Nat
  inv_dir : Nat → Nat
  lattice_vec_x : Nat → ℚ
  lattice_vec_y : Nat → ℚ
  collision_lut : Nat → Bool → Nat
  bb_lut : Nat → Nat
  bf_x_lut : Nat → Nat
  bf_y_lut : Nat → Nat
  offset_to_neighbor_even : Nat → Int
  offset_to_neighbor_odd : Nat → Int
  offset_to_western_boundary_even : Nat → Int
  offset_to_western_boundary_odd : Nat → Int
  offset_to_eastern_boundary_even : Nat → Int
  offset_to_eastern_boundary_odd : Nat → Int
  offset_to_northern_boundary_even : Nat → Int
  offset_to_northern_boundary_odd : Nat → Int
  offset_to_southern_boundary_even : Nat → Int
  offset_to_southern_boundary_odd : Nat → Int

/-- State owned by an `OMP_Lattice` object: dimensions, coarse graining
radius, the cell type map, the three node state buffers (current,
scratch, output snapshot), the random bit pool and the derived fields.
Flat arrays are embedded as total functions on integer indices; node
buffers are addressed as (cell, direction) with the direction being the
bit position inside the cell's 8-bit stride block. -/
structure OMP_Lattice where
  dim_x : Nat
  dim_y : Nat
  coarse_graining_radius : Nat
  cell_type : Int → CellType
  node_state : Int → Nat → Bool
  node_state_tmp : Int → Nat → Bool
  node_state_out : Int → Nat → Bool
  rnd : Int → Bool
  cell_density : Int → ℚ
  cell_momentum_x : Int → ℚ
  cell_momentum_y : Int → ℚ
  mean_density : Int → ℚ
  mean_momentum_x : Int → ℚ
  mean_momentum_y : Int → ℚ

/-- Total number of cells, `m_num_cells = m_dim_x * m_dim_y`. -/
def num_cells (st : OMP_Lattice) : Nat := st.dim_x * st.dim_y

/-- Modelled from the spec: the base `Lattice` class (not under src/)
computes the coarse grid x dimension as the ceiling of
`DIM_X / (2r+1)`. -/
def coarse_dim_x (st : OMP_Lattice) : Nat :=
  (st.dim_x + 2 * st.coarse_graining_radius) / (2 * st.coarse_graining_radius + 1)

/-- Modelled from the spec: coarse grid y dimension, ceiling of
`DIM_Y / (2r+1)`. -/
def coarse_dim_y (st : OMP_Lattice) : Nat :=
  (st.dim_y + 2 * st.coarse_graining_radius) / (2 * st.coarse_graining_radius + 1)

/-- Number of coarse cells. -/
def num_coarse_cells (st : OMP_Lattice) : Nat := coarse_dim_x st * coarse_dim_y st

/-- Packs a per-direction boolean array into a `nd`-bit pattern word. -/
def packWord (nd : Nat) (a : Nat → Bool) : Nat :=
  ∑ d ∈ Finset.range nd, if a d then 2 ^ d else 0

/-- A LUT that permutes the bits of a `nd`-bit word by the direction map
`p` (bit `d` of the output is bit `p d` of the input). -/
def permLut (nd : Nat) (p : Nat → Nat) (w : Nat) : Nat :=
  packWord nd (fun d => w.testBit (p d))

/-- Eastern boundary test `(cell + 1) % m_dim_x == 0`. -/
def on_eastern (dim_x : Nat) (cell : Nat) : Bool := (cell + 1) % dim_x == 0

/-- Northern boundary test `cell >= m_num_cells - m_dim_x`. -/
def on_northern (dim_x dim_y : Nat) (cell : Nat) : Bool :=
  decide (dim_x * dim_y - dim_x ≤ cell)

/-- Western boundary test `cell % m_dim_x == 0`. -/
def on_western (dim_x : Nat) (cell : Nat) : Bool := cell % dim_x == 0

/-- Southern boundary test `cell < m_dim_x`. -/
def on_southern (dim_x : Nat) (cell : Nat) : Bool := decide (cell < dim_x)

/-- The signed memory offset used by the propagation gather for stored
direction `dir` at `cell`: the parity-selected default offset for the
inverse direction plus the boundary corrections, exactly as assembled in
`collide_and_propagate` (lines 140-176 of omp_lattice.cpp). -/
def gather_offset (m : ModelDesc) (dim_x dim_y : Nat) (cell dir : Nat) : Int :=
  let inv_dir := m.inv_dir dir
  let pos_y := cell / dim_x
  if pos_y % 2 = 0 then
    m.offset_to_neighbor_even inv_dir
      + (if on_eastern dim_x cell then m.offset_to_western_boundary_even inv_dir else 0)
      + (if on_northern dim_x dim_y cell then m.offset_to_southern_boundary_even inv_dir else 0)
      + (if on_western dim_x cell then m.offset_to_eastern_boundary_even inv_dir else 0)
      + (if on_southern dim_x cell then m.offset_to_northern_boundary_even inv_dir else 0)
  else
    m.offset_to_neighbor_odd inv_dir
      + (if on_eastern dim_x cell then m.offset_to_western_boundary_odd inv_dir else 0)
      + (if on_northern dim_x dim_y cell then m.offset_to_southern_boundary_odd inv_dir else 0)
      + (if on_western dim_x cell then m.offset_to_eastern_boundary_odd inv_dir else 0)
      + (if on_southern dim_x cell then m.offset_to_northern_boundary_odd inv_dir else 0)

/-- The gathered (pulled) node bit for stored direction `dir` at `cell`:
`node_state[dir] = m_node_state_cpu[dir + (cell + offset) * 8]`. -/
def gatherBit (m : ModelDesc) (dim_x dim_y : Nat) (ns : Int → Nat → Bool)
    (cell dir : Nat) : Bool :=
  ns ((cell : Int) + gather_offset m dim_x dim_y cell dir) dir

/-- The gathered input word `in` of a cell, packed from the gathered bits. -/
def gatherWord (m : ModelDesc) (dim_x dim_y : Nat) (ns : Int → Nat → Bool)
    (cell : Nat) : Nat :=
  packWord m.num_dir (gatherBit m dim_x dim_y ns cell)

/-- The per-cell output of the collision step (`node_state_tmp` after the
switch on the cell type): FLUID applies the collision LUT with the cell's
random bit, SOLID_NO_SLIP applies the bounce-back LUT, SOLID_SLIP starts
from the copied input and lets each applicable bounce-forward call
overwrite the scratch with the LUT image of the unmodified gathered
input. -/
def cellOut (m : ModelDesc) (dim_x dim_y : Nat) (ns : Int → Nat → Bool)
    (ct : Int → CellType) (rnd : Int → Bool) (cell : Nat) : Nat → Bool :=
  let node_state := gatherBit m dim_x dim_y ns cell
  match ct (cell : Int) with
  | CellType.FLUID =>
      fun d => (m.collision_lut (packWord m.num_dir node_state) (rnd (cell : Int))).testBit d
  | CellType.SOLID_NO_SLIP =>
      fun d => (m.bb_lut (packWord m.num_dir node_state)).testBit d
  | CellType.SOLID_SLIP =>
      let t1 := if on_northern dim_x dim_y cell || on_southern dim_x cell
                then fun d => (m.bf_x_lut (packWord m.num_dir node_state)).testBit d
                else node_state
      let t2 := if on_eastern dim_x cell || on_western dim_x cell
                then fun d => (m.bf_y_lut (packWord m.num_dir node_state)).testBit d
                else t1
      t2

/-- Writes the `nd` direction bits of `out` into the buffer at `cell`,
as the write-back loop `m_node_state_tmp_cpu[dir + cell * 8] = ...`. -/
def writeCell (buf : Int → Nat → Bool) (cell : Nat) (nd : Nat)
    (out : Nat → Bool) : Int → Nat → Bool :=
  fun c d => if c = (cell : Int) ∧ d < nd then out d else buf c d

/-- One iteration of the cell loop of `collide_and_propagate`: computes
the cell's output from the current buffer and writes it into the scratch
buffer. -/
def cap_step (m : ModelDesc) (s : OMP_Lattice) (cell : Nat) : OMP_Lattice :=
  { s with node_state_tmp := writeCell s.node_state_tmp cell m.num_dir (cellOut m s.dim_x s.dim_y s.node_state s.cell_type s.rnd cell) }

/-- The parallel region of `collide_and_propagate`: every cell of
`[0, num_cells)` is processed (the tiling into bit blocks partitions the
same range), each writing only its own scratch entry. -/
def cap_loop (m : ModelDesc) (st : OMP_Lattice) : OMP_Lattice :=
  (List.range (num_cells st)).foldl (cap_step m) st

/-- The full step operator: run the parallel region, then swap the
current and scratch buffer pointers (lines 245-248 of omp_lattice.cpp). -/
def collide_and_propagate (m : ModelDesc) (st : OMP_Lattice) : OMP_Lattice :=
  let st1 := cap_loop m st
  { st1 with node_state := st1.node_state_tmp, node_state_tmp := st1.node_state }

lemma cap_step_node_state (m : ModelDesc) (s : OMP_Lattice) (cell : Nat) :
    (cap_step m s cell).node_state = s.node_state := rfl

lemma cap_step_dim_x (m : ModelDesc) (s : OMP_Lattice) (cell : Nat) :
    (cap_step m s cell).dim_x = s.dim_x := rfl

lemma cap_step_dim_y (m : ModelDesc) (s : OMP_Lattice) (cell : Nat) :
    (cap_step m s cell).dim_y = s.dim_y := rfl

lemma cap_step_cell_type (m : ModelDesc) (s : OMP_Lattice) (cell : Nat) :
    (cap_step m s cell).cell_type = s.cell_type := rfl

lemma cap_step_rnd (m : ModelDesc) (s : OMP_Lattice) (cell : Nat) :
    (cap_step m s cell).rnd = s.rnd := rfl

lemma cap_foldl_node_state (m : ModelDesc) :
    ∀ (l : List Nat) (s : OMP_Lattice),
      (l.foldl (cap_step m) s).node_state = s.node_state := by
  intro l
  induction l with
  | nil => intro s; rfl
  | cons a t ih => intro s; simpa [List.foldl_cons] using ih (cap_step m s a)

lemma cap_foldl_dim_x (m : ModelDesc) :
    ∀ (l : List Nat) (s : OMP_Lattice),
      (l.foldl (cap_step m) s).dim_x = s.dim_x := by
  intro l
  induction l with
  | nil => intro s; rfl
  | cons a t ih => intro s; simpa [List.foldl_cons] using ih (cap_step m s a)

lemma cap_foldl_dim_y (m : ModelDesc) :
    ∀ (l : List Nat) (s : OMP_Lattice),
      (l.foldl (cap_step m) s).dim_y = s.dim_y := by
  intro l
  induction l with
  | nil => intro s; rfl
  | cons a t ih => intro s; simpa [List.foldl_cons] using ih (cap_step m s a)

lemma cap_foldl_cell_type (m : ModelDesc) :
    ∀ (l : List Nat) (s : OMP_Lattice),
      (l.foldl (cap_step m) s).cell_type = s.cell_type := by
  intro l
  induction l with
  | nil => intro s; rfl
  | cons a t ih => intro s; simpa [List.foldl_cons] using ih (cap_step m s a)

lemma cap_foldl_rnd (m : ModelDesc) :
    ∀ (l : List Nat) (s : OMP_Lattice),
      (l.foldl (cap_step m) s).rnd = s.rnd := by
  intro l
  induction l with
  | nil => intro s; rfl
  | cons a t ih => intro s; simpa [List.foldl_cons] using ih (cap_step m s a)

lemma cap_foldl_tmp (m : ModelDesc) :
    ∀ (l : List Nat) (s : OMP_Lattice) (c d : Nat), d < m.num_dir →
      (l.foldl (cap_step m) s).node_state_tmp (c : Int) d =
        if c ∈ l then cellOut m s.dim_x s.dim_y s.node_state s.cell_type s.rnd c d
        else s.node_state_tmp (c : Int) d := by
  intro l
  induction l with
  | nil =>
      intro s c d _
      simp
  | cons a t ih =>
      intro s c d hd
      have ihs := ih (cap_step m s a) c d hd
      rw [List.foldl_cons, ihs]
      by_cases hct : c ∈ t
      · simp [hct, cap_step]
      · by_cases hca : c = a
        · subst hca
          simp [hct, cap_step, writeCell, hd]
        · have hcast : (c : Int) ≠ (a : Int) := by exact_mod_cast hca
          simp [hct, hca, cap_step, writeCell, hcast]

/-- Core characterization of the step kernel: for every cell of the
range and every stored direction, the post-swap current buffer holds the
cell-type-dispatched output computed from the pre-step current buffer. -/
lemma collide_and_propagate_node_state (m : ModelDesc) (st : OMP_Lattice)
    (cell : Nat) (hc : cell < num_cells st) (d : Nat) (hd : d < m.num_dir) :
    (collide_and_propagate m st).node_state (cell : Int) d =
      cellOut m st.dim_x st.dim_y st.node_state st.cell_type st.rnd cell d := by
  have h := cap_foldl_tmp m (List.range (num_cells st)) st cell d hd
  have hmem : cell ∈ List.range (num_cells st) := List.mem_range.mpr hc
  rw [collide_and_propagate]
  simpa [cap_loop, hmem] using h

/-- After the step, the scratch pointer holds the old current buffer. -/
lemma collide_and_propagate_swap (m : ModelDesc) (st : OMP_Lattice) :
    (collide_and_propagate m st).node_state_tmp = st.node_state := by
  rw [collide_and_propagate]
  simpa [cap_loop] using cap_foldl_node_state m (List.range (num_cells st)) st

lemma cellOut_fluid (m : ModelDesc) (dim_x dim_y : Nat) (ns : Int → Nat → Bool)
    (ct : Int → CellType) (rnd : Int → Bool) (cell : Nat)
    (h : ct (cell : Int) = CellType.FLUID) :
    cellOut m dim_x dim_y ns ct rnd cell =
      fun d => (m.collision_lut (packWord m.num_dir (gatherBit m dim_x dim_y ns cell))
        (rnd (cell : Int))).testBit d := by
  unfold cellOut
  rw [h]

lemma cellOut_slip (m : ModelDesc) (dim_x dim_y : Nat) (ns : Int → Nat → Bool)
    (ct : Int → CellType) (rnd : Int → Bool) (cell : Nat)
    (h : ct (cell : Int) = CellType.SOLID_SLIP) :
    cellOut m dim_x dim_y ns ct rnd cell =
      (let node_state := gatherBit m dim_x dim_y ns cell
       let t1 := if on_northern dim_x dim_y cell || on_southern dim_x cell
                 then fun d => (m.bf_x_lut (packWord m.num_dir node_state)).testBit d
                 else node_state
       if on_eastern dim_x cell || on_western dim_x cell
       then fun d => (m.bf_y_lut (packWord m.num_dir node_state)).testBit d
       else t1) := by
  unfold cellOut
  rw [h]

/-- C3: for every FLUID cell, one step writes into the scratch buffer the
collision LUT applied to the gathered word (each bit pulled from the
neighbor in the inverse direction via the parity- and edge-corrected
offset tables, at the same stored direction), reading only the pre-step
current buffer; the buffers are swapped only after the whole region. -/
theorem C3_fluid_gather_swap (m : ModelDesc) (st : OMP_Lattice) (cell : Nat)
    (hc : cell < num_cells st) (hf : st.cell_type (cell : Int) = CellType.FLUID) :
    (∀ d, d < m.num_dir →
      (collide_and_propagate m st).node_state (cell : Int) d =
        (m.collision_lut (gatherWord m st.dim_x st.dim_y st.node_state cell)
          (st.rnd (cell : Int))).testBit d)
    ∧ (collide_and_propagate m st).node_state_tmp = st.node_state := by
  constructor
  · intro d hd
    rw [collide_and_propagate_node_state m st cell hc d hd,
        cellOut_fluid m _ _ _ _ _ _ hf]
    rfl
  · exact collide_and_propagate_swap m st

/-- Modelled from the spec: HPP inverse-direction map on directions
{E, N, W, S} indexed 0..3. -/
def hppInv : Nat → Nat := fun d => [2, 3, 0, 1].getD d d

/-- Modelled from the spec: HPP mirror map across the x axis. -/
def hppMirX : Nat → Nat := fun d => [0, 3, 2, 1].getD d d

/-- Modelled from the spec: HPP mirror map across the y axis. -/
def hppMirY : Nat → Nat := fun d => [2, 1, 0, 3].getD d d

/-- Modelled from the spec: HPP collision rule, the two head-on pairs
rotate into each other, all other patterns are untouched. -/
def hppCollision : Nat → Bool → Nat :=
  fun w _ => if w = 5 then 10 else if w = 10 then 5 else w

/-- Modelled from the spec: a concrete HPP model descriptor for a
`dim_x` by `dim_y` lattice, with periodic-wrap boundary corrections. -/
def hppDesc (dx dy : Nat) : ModelDesc where
  num_dir := 4
  inv_dir := hppInv
  lattice_vec_x := fun d => [(1 : ℚ), 0, -1, 0].getD d 0
  lattice_vec_y := fun d => [(0 : ℚ), 1, 0, -1].getD d 0
  collision_lut := hppCollision
  bb_lut := permLut 4 hppInv
  bf_x_lut := permLut 4 hppMirX
  bf_y_lut := permLut 4 hppMirY
  offset_to_neighbor_even := fun d => [(1 : Int), (dx : Int), -1, -(dx : Int)].getD d 0
  offset_to_neighbor_odd := fun d => [(1 : Int), (dx : Int), -1, -(dx : Int)].getD d 0
  offset_to_western_boundary_even := fun d => if d = 0 then -(dx : Int) else 0
  offset_to_western_boundary_odd := fun d => if d = 0 then -(dx : Int) else 0
  offset_to_eastern_boundary_even := fun d => if d = 2 then (dx : Int) else 0
  offset_to_eastern_boundary_odd := fun d => if d = 2 then (dx : Int) else 0
  offset_to_southern_boundary_even := fun d => if d = 1 then -((dx * dy : Nat) : Int) else 0
  offset_to_southern_boundary_odd := fun d => if d = 1 then -((dx * dy : Nat) : Int) else 0
  offset_to_northern_boundary_even := fun d => if d = 3 then ((dx * dy : Nat) : Int) else 0
  offset_to_northern_boundary_odd := fun d => if d = 3 then ((dx * dy : Nat) : Int) else 0

/-- Builder for concrete lattice states used by witnesses. -/
def mkLat (dx dy r : Nat) (ct : Int → CellType) (ns : Int → Nat → Bool)
    (nsout : Int → Nat → Bool) (dens momx momy : Int → ℚ) : OMP_Lattice where
  dim_x := dx
  dim_y := dy
  coarse_graining_radius := r
  cell_type := ct
  node_state := ns
  node_state_tmp := fun _ _ => false
  node_state_out := nsout
  rnd := fun _ => false
  cell_density := dens
  cell_momentum_x := momx
  cell_momentum_y := momy
  mean_density := fun _ => 0
  mean_momentum_x := fun _ => 0
  mean_momentum_y := fun _ => 0

/-- A 1 by 1 all-FLUID lattice whose single cell carries one westbound
particle (direction 2), with output snapshot bits {0, 2}. -/
def st1f : OMP_Lattice :=
  mkLat 1 1 0 (fun _ => CellType.FLUID) (fun _ d => d == 2)
    (fun _ d => d == 0 || d == 2) (fun _ => 1) (fun _ => 1) (fun _ => 0)

/-- A 1 by 1 lattice whose single SOLID_SLIP cell (a corner, lying on
all four boundaries) carries one northbound particle (direction 1). -/
def st1s : OMP_Lattice :=
  mkLat 1 1 0 (fun _ => CellType.SOLID_SLIP) (fun _ d => d == 1)
    (fun _ _ => false) (fun _ => 0) (fun _ => 0) (fun _ => 0)

/-- C3 witness: the generic theorem instantiated on the 1 by 1 HPP fluid
lattice at direction 0. -/
theorem C3_fluid_gather_swap_witness :
    (collide_and_propagate (hppDesc 1 1) st1f).node_state 0 0 =
      ((hppDesc 1 1).collision_lut (gatherWord (hppDesc 1 1) 1 1 st1f.node_state 0)
        (st1f.rnd 0)).testBit 0 :=
  (C3_fluid_gather_swap (hppDesc 1 1) st1f 0 (by decide) rfl).1 0 (by decide)

/-- C4 (amended): for a SOLID_SLIP cell both bounce-forward calls read
the unmodified gathered input and overwrite the scratch, so at a corner
the second call wins and the output is `BF_Y_LUT[in]` alone (not the
composition); on a single northern/southern boundary the output is
`BF_X_LUT[in]`, on a single eastern/western boundary `BF_Y_LUT[in]`. -/
theorem C4_slip_mirrors (m : ModelDesc) (st : OMP_Lattice) (cell : Nat)
    (hc : cell < num_cells st)
    (hs : st.cell_type (cell : Int) = CellType.SOLID_SLIP) :
    ((on_northern st.dim_x st.dim_y cell || on_southern st.dim_x cell) = true →
      (on_eastern st.dim_x cell || on_western st.dim_x cell) = true →
      ∀ d, d < m.num_dir →
        (collide_and_propagate m st).node_state (cell : Int) d =
          (m.bf_y_lut (gatherWord m st.dim_x st.dim_y st.node_state cell)).testBit d)
    ∧ ((on_northern st.dim_x st.dim_y cell || on_southern st.dim_x cell) = true →
      (on_eastern st.dim_x cell || on_western st.dim_x cell) = false →
      ∀ d, d < m.num_dir →
        (collide_and_propagate m st).node_state (cell : Int) d =
          (m.bf_x_lut (gatherWord m st.dim_x st.dim_y st.node_state cell)).testBit d)
    ∧ ((on_northern st.dim_x st.dim_y cell || on_southern st.dim_x cell) = false →
      (on_eastern st.dim_x cell || on_western st.dim_x cell) = true →
      ∀ d, d < m.num_dir →
        (collide_and_propagate m st).node_state (cell : Int) d =
          (m.bf_y_lut (gatherWord m st.dim_x st.dim_y st.node_state cell)).testBit d) := by
  refine ⟨?_, ?_, ?_⟩ <;> intro hNS hEW d hd <;>
    rw [collide_and_propagate_node_state m st cell hc d hd,
        cellOut_slip m _ _ _ _ _ _ hs] <;>
    simp [hNS, hEW, gatherWord]

/-- C4 counterexample: on the 1 by 1 HPP corner slip cell holding a
northbound particle, the step output differs from the claimed
composition `BF_Y_LUT[BF_X_LUT[in]]` at direction 1. -/
theorem C4_slip_corner_cex :
    (collide_and_propagate (hppDesc 1 1) st1s).node_state 0 1 ≠
      ((hppDesc 1 1).bf_y_lut ((hppDesc 1 1).bf_x_lut
        (gatherWord (hppDesc 1 1) 1 1 st1s.node_state 0))).testBit 1 := by
  decide

/-- C4 witness: the amended corner case instantiated on the 1 by 1 HPP
slip lattice at direction 1. -/
theorem C4_slip_mirrors_witness :
    (collide_and_propagate (hppDesc 1 1) st1s).node_state 0 1 =
      ((hppDesc 1 1).bf_y_lut (gatherWord (hppDesc 1 1) 1 1 st1s.node_state 0)).testBit 1 :=
  (C4_slip_mirrors (hppDesc 1 1) st1s 0 (by decide) rfl).1 (by decide) (by decide) 1 (by decide)

/-- Diagnostic message of the FHP dimension check. -/
def fhp_dim_error : String :=
  "ERROR in OMP_Lattice<Model::FHP>::collide_and_propagate(): Invalid domain dimension in y direction."

/-- Debug-build step operator: the NDEBUG-guarded check at the top of
`collide_and_propagate` aborts for an FHP model with odd `dim_y` before
the cell loop runs; otherwise the normal step executes. -/
def collide_and_propagate_checked (mo : Model) (m : ModelDesc) (st : OMP_Lattice) :
    Except String OMP_Lattice :=
  if st.dim_y % 2 ≠ 0 ∧ (mo = Model.FHP_I ∨ mo = Model.FHP_II ∨ mo = Model.FHP_III)
  then Except.error fhp_dim_error
  else Except.ok (collide_and_propagate m st)

/-- C8: for any FHP model an odd `dim_y` makes the debug-build step abort
with the diagnostic before touching any cell; for HPP or an even `dim_y`
the check never fires and the step runs normally. -/
theorem C8_fhp_odd_dim_y (mo : Model) (m : ModelDesc) (st : OMP_Lattice) :
    ((mo = Model.FHP_I ∨ mo = Model.FHP_II ∨ mo = Model.FHP_III) →
      st.dim_y % 2 = 1 →
      collide_and_propagate_checked mo m st = Except.error fhp_dim_error)
    ∧ ((mo = Model.HPP ∨ st.dim_y % 2 = 0) →
      collide_and_propagate_checked mo m st =
        Except.ok (collide_and_propagate m st)) := by
  constructor
  · intro hmo hodd
    rw [collide_and_propagate_checked, if_pos ⟨by omega, hmo⟩]
  · intro h
    rw [collide_and_propagate_checked, if_neg]
    rintro ⟨hne, hmo⟩
    rcases h with h | h
    · subst h
      rcases hmo with h | h | h <;> exact Model.noConfusion h
    · exact hne h

/-- C8 witness: FHP-I on a lattice with `dim_y = 1` aborts with the
diagnostic. -/
theorem C8_fhp_odd_dim_y_witness :
    collide_and_propagate_checked Model.FHP_I (hppDesc 1 1) st1f =
      Except.error fhp_dim_error :=
  (C8_fhp_odd_dim_y Model.FHP_I (hppDesc 1 1) st1f).1 (Or.inl rfl) rfl

/-- Overwrites one direction bit of a per-cell node array. -/
def setBit (f : Nat → Bool) (i : Nat) (b : Bool) : Nat → Bool :=
  fun d => if d = i then b else f d

/-- State threaded through the do-while loop of `apply_body_force`:
the lattice, the iteration counter `it` and the count of reverted
particles. -/
structure BFState where
  lat : OMP_Lattice
  it : Nat
  reverted : Nat

/-- The node pattern written back by one body-force visit of a fluid
cell (`node_state_tmp` of lines 293-338): per model and force axis,
swap the direction pair when the source is occupied and the target free;
for FHP along y both diagonal pairs are attempted independently, each
guard reading the unmodified `node_state`. -/
def bfTmp (mo : Model) (bf_dir : Char) (ns : Nat → Bool) : Nat → Bool :=
  if mo = Model.HPP then
    if bf_dir = 'x' ∧ ns 0 = false ∧ ns 2 = true then setBit (setBit ns 0 true) 2 false
    else if bf_dir = 'y' ∧ ns 1 = true ∧ ns 3 = false then setBit (setBit ns 1 false) 3 true
    else ns
  else
    if bf_dir = 'x' ∧ ns 0 = false ∧ ns 3 = true then setBit (setBit ns 0 true) 3 false
    else if bf_dir = 'y' then
      if ns 2 = true ∧ ns 4 = false then
        setBit (setBit (if ns 1 = true ∧ ns 5 = false
          then setBit (setBit ns 1 false) 5 true else ns) 2 false) 4 true
      else (if ns 1 = true ∧ ns 5 = false then setBit (setBit ns 1 false) 5 true else ns)
    else ns

/-- The number of `reverted_particles++` increments of one body-force
visit of a fluid cell. -/
def bfInc (mo : Model) (bf_dir : Char) (ns : Nat → Bool) : Nat :=
  if mo = Model.HPP then
    if bf_dir = 'x' ∧ ns 0 = false ∧ ns 2 = true then 1
    else if bf_dir = 'y' ∧ ns 1 = true ∧ ns 3 = false then 1
    else 0
  else
    if bf_dir = 'x' ∧ ns 0 = false ∧ ns 3 = true then 1
    else if bf_dir = 'y' then
      (if ns 1 = true ∧ ns 5 = false then 1 else 0)
        + (if ns 2 = true ∧ ns 4 = false then 1 else 0)
    else 0

/-- One execution of the do-while body of `apply_body_force`: sample a
cell with `rand() % m_num_cells`, bump the iteration counter, and if the
cell is FLUID rewrite its node pattern and bump the reverted counter. -/
def bfBody (mo : Model) (bf_dir : Char) (rand : Nat → Nat) (s : BFState) : BFState :=
  let cell := rand s.it % num_cells s.lat
  if s.lat.cell_type (cell : Int) = CellType.FLUID then
    let ns := fun d => s.lat.node_state (cell : Int) d
    { lat := { s.lat with node_state := fun c d => if c = (cell : Int) then bfTmp mo bf_dir ns d else s.lat.node_state c d },
      it := s.it + 1,
      reverted := s.reverted + bfInc mo bf_dir ns }
  else { s with it := s.it + 1 }

/-- Fuel-indexed unfolding of the do-while loop: the body runs at least
once, and the loop continues while `reverted < forcing && it < it_max`. -/
def bfRun (mo : Model) (bf_dir : Char) (rand : Nat → Nat) (forcing it_max : Nat) :
    Nat → BFState → BFState
  | 0, s => bfBody mo bf_dir rand s
  | fuel + 1, s =>
    let s1 := bfBody mo bf_dir rand s
    if s1.reverted < forcing ∧ s1.it < it_max then
      bfRun mo bf_dir rand forcing it_max fuel s1
    else s1

/-- The body-force operator: run the do-while loop with
`it_max = 2 * m_num_cells`; the fuel `it_max` is enough, since `it`
increases by one per body execution and the loop exits once
`it >= it_max`. -/
def apply_body_force (mo : Model) (bf_dir : Char) (rand : Nat → Nat)
    (forcing : Nat) (st : OMP_Lattice) : BFState :=
  bfRun mo bf_dir rand forcing (2 * num_cells st) (2 * num_cells st) ⟨st, 0, 0⟩

lemma bfRun_zero (mo : Model) (bf_dir : Char) (rand : Nat → Nat)
    (forcing it_max : Nat) (s : BFState) :
    bfRun mo bf_dir rand forcing it_max 0 s = bfBody mo bf_dir rand s := rfl

lemma bfRun_succ (mo : Model) (bf_dir : Char) (rand : Nat → Nat)
    (forcing it_max f : Nat) (s : BFState) :
    bfRun mo bf_dir rand forcing it_max (f + 1) s =
      (if (bfBody mo bf_dir rand s).reverted < forcing ∧
          (bfBody mo bf_dir rand s).it < it_max
       then bfRun mo bf_dir rand forcing it_max f (bfBody mo bf_dir rand s)
       else bfBody mo bf_dir rand s) := rfl

lemma bfBody_it (mo : Model) (bf_dir : Char) (rand : Nat → Nat) (s : BFState) :
    (bfBody mo bf_dir rand s).it = s.it + 1 := by
  unfold bfBody
  dsimp only
  split <;> rfl

lemma sum8_swap (ns : Nat → Bool) (i j : Nat) (bi bj : Bool) (hi : i < 8) (hj : j < 8)
    (hij : i ≠ j) (h1 : ns i = bj) (h2 : ns j = bi) :
    ∑ d ∈ Finset.range 8, (if setBit (setBit ns i bi) j bj d then (1 : Nat) else 0) =
      ∑ d ∈ Finset.range 8, (if ns d then (1 : Nat) else 0) := by
  have himem : i ∈ Finset.range 8 := Finset.mem_range.mpr hi
  have hjmem : j ∈ (Finset.range 8).erase i :=
    Finset.mem_erase.mpr ⟨Ne.symm hij, Finset.mem_range.mpr hj⟩
  have key : ∀ f : Nat → Bool,
      ∑ d ∈ Finset.range 8, (if f d then (1 : Nat) else 0) =
        (∑ d ∈ ((Finset.range 8).erase i).erase j, (if f d then (1 : Nat) else 0))
          + (if f j then 1 else 0) + (if f i then 1 else 0) := by
    intro f
    calc ∑ d ∈ Finset.range 8, (if f d then (1 : Nat) else 0)
        = (∑ d ∈ (Finset.range 8).erase i, (if f d then (1 : Nat) else 0))
            + (if f i then 1 else 0) := (Finset.sum_erase_add _ _ himem).symm
      _ = ((∑ d ∈ ((Finset.range 8).erase i).erase j, (if f d then (1 : Nat) else 0))
            + (if f j then 1 else 0)) + (if f i then 1 else 0) := by
            rw [Finset.sum_erase_add _ _ hjmem]
  rw [key (setBit (setBit ns i bi) j bj), key ns]
  have e1 : setBit (setBit ns i bi) j bj i = bi := by simp [setBit, hij]
  have e2 : setBit (setBit ns i bi) j bj j = bj := by simp [setBit]
  have tail : ∀ d ∈ ((Finset.range 8).erase i).erase j,
      setBit (setBit ns i bi) j bj d = ns d := by
    intro d hd
    have hdj : d ≠ j := (Finset.mem_erase.mp hd).1
    have hdi : d ≠ i := (Finset.mem_erase.mp ((Finset.mem_erase.mp hd).2)).1
    simp [setBit, hdj, hdi]
  rw [Finset.sum_congr rfl (fun d hd => by rw [tail d hd]), e1, e2, h1, h2]
  ring

lemma bfTmp_sum (mo : Model) (bf_dir : Char) (ns : Nat → Bool) :
    ∑ d ∈ Finset.range 8, (if bfTmp mo bf_dir ns d then (1 : Nat) else 0) =
      ∑ d ∈ Finset.range 8, (if ns d then (1 : Nat) else 0) := by
  unfold bfTmp
  by_cases hmo : mo = Model.HPP
  · rw [if_pos hmo]
    by_cases h1 : bf_dir = 'x' ∧ ns 0 = false ∧ ns 2 = true
    · rw [if_pos h1]
      exact sum8_swap ns 0 2 true false (by omega) (by omega) (by omega) h1.2.1 h1.2.2
    · rw [if_neg h1]
      by_cases h2 : bf_dir = 'y' ∧ ns 1 = true ∧ ns 3 = false
      · rw [if_pos h2]
        exact sum8_swap ns 1 3 false true (by omega) (by omega) (by omega) h2.2.1 h2.2.2
      · rw [if_neg h2]
  · rw [if_neg hmo]
    by_cases h1 : bf_dir = 'x' ∧ ns 0 = false ∧ ns 3 = true
    · rw [if_pos h1]
      exact sum8_swap ns 0 3 true false (by omega) (by omega) (by omega) h1.2.1 h1.2.2
    · rw [if_neg h1]
      by_cases h2 : bf_dir = 'y'
      · rw [if_pos h2]
        by_cases hp1 : ns 1 = true ∧ ns 5 = false
        · rw [if_pos hp1]
          by_cases hp2 : ns 2 = true ∧ ns 4 = false
          · rw [if_pos hp2]
            have hT2 : (setBit (setBit ns 1 false) 5 true) 2 = true := by
              simpa [setBit] using hp2.1
            have hT4 : (setBit (setBit ns 1 false) 5 true) 4 = false := by
              simpa [setBit] using hp2.2
            calc ∑ d ∈ Finset.range 8,
                  (if setBit (setBit (setBit (setBit ns 1 false) 5 true) 2 false) 4 true d
                   then (1 : Nat) else 0)
                = ∑ d ∈ Finset.range 8,
                    (if (setBit (setBit ns 1 false) 5 true) d then (1 : Nat) else 0) :=
                  sum8_swap _ 2 4 false true (by omega) (by omega) (by omega) hT2 hT4
              _ = ∑ d ∈ Finset.range 8, (if ns d then (1 : Nat) else 0) :=
                  sum8_swap ns 1 5 false true (by omega) (by omega) (by omega) hp1.1 hp1.2
          · rw [if_neg hp2]
            exact sum8_swap ns 1 5 false true (by omega) (by omega) (by omega) hp1.1 hp1.2
        · rw [if_neg hp1]
          by_cases hp2 : ns 2 = true ∧ ns 4 = false
          · rw [if_pos hp2]
            exact sum8_swap ns 2 4 false true (by omega) (by omega) (by omega) hp2.1 hp2.2
          · rw [if_neg hp2]
      · rw [if_neg h2]

/-- Total particle count of the current node buffer (popcount of the
8-bit stride blocks of all cells). -/
def bf_mass (st : OMP_Lattice) : Nat :=
  ∑ c ∈ Finset.range (num_cells st), ∑ d ∈ Finset.range 8,
    (if st.node_state (c : Int) d then (1 : Nat) else 0)

lemma bfBody_mass (mo : Model) (bf_dir : Char) (rand : Nat → Nat) (s : BFState) :
    bf_mass (bfBody mo bf_dir rand s).lat = bf_mass s.lat := by
  unfold bfBody
  dsimp only
  split
  · next hf =>
    rcases Nat.eq_zero_or_pos (num_cells s.lat) with hN | hN
    · simp [bf_mass, num_cells] at hN ⊢
      rcases hN with h | h <;> simp [h]
    · have hcl : rand s.it % num_cells s.lat < num_cells s.lat := Nat.mod_lt _ hN
      have hmem : rand s.it % num_cells s.lat ∈ Finset.range (num_cells s.lat) :=
        Finset.mem_range.mpr hcl
      show (∑ c ∈ Finset.range (num_cells s.lat), _) = _
      rw [bf_mass, ← Finset.sum_erase_add _ _ hmem, ← Finset.sum_erase_add _ _ hmem]
      congr 1
      · apply Finset.sum_congr rfl
        intro c hc
        have hne : c ≠ rand s.it % num_cells s.lat := (Finset.mem_erase.mp hc).1
        have hnint : (c : Int) ≠ ((rand s.it % num_cells s.lat : Nat) : Int) := by
          exact_mod_cast hne
        apply Finset.sum_congr rfl
        intro d _
        dsimp only
        rw [if_neg hnint]
      · simp only [if_pos rfl]
        exact bfTmp_sum mo bf_dir _
  · rfl

lemma bfRun_mass (mo : Model) (bf_dir : Char) (rand : Nat → Nat) (forcing it_max : Nat) :
    ∀ (fuel : Nat) (s : BFState),
      bf_mass (bfRun mo bf_dir rand forcing it_max fuel s).lat = bf_mass s.lat := by
  intro fuel
  induction fuel with
  | zero => intro s; rw [bfRun_zero]; exact bfBody_mass mo bf_dir rand s
  | succ f ih =>
      intro s
      rw [bfRun_succ]
      split
      · rw [ih (bfBody mo bf_dir rand s)]
        exact bfBody_mass mo bf_dir rand s
      · exact bfBody_mass mo bf_dir rand s

/-- C7: `apply_body_force` preserves total mass: each successful swap
clears exactly one occupied bit and sets one unoccupied bit of the same
cell, so the total popcount of the node-state array is unchanged. -/
theorem C7_mass_conservation (mo : Model) (bf_dir : Char) (rand : Nat → Nat)
    (forcing : Nat) (st : OMP_Lattice) :
    bf_mass (apply_body_force mo bf_dir rand forcing st).lat = bf_mass st :=
  bfRun_mass mo bf_dir rand forcing (2 * num_cells st) (2 * num_cells st) ⟨st, 0, 0⟩

lemma bfRun_exit (mo : Model) (bf_dir : Char) (rand : Nat → Nat) (forcing it_max : Nat) :
    ∀ (fuel : Nat) (s : BFState), fuel + s.it = it_max → s.it < it_max →
      ∃ mm, 1 ≤ mm ∧
        bfRun mo bf_dir rand forcing it_max fuel s = (bfBody mo bf_dir rand)^[mm] s ∧
        ((bfBody mo bf_dir rand)^[mm] s).it = s.it + mm ∧
        s.it + mm ≤ it_max ∧
        (forcing ≤ ((bfBody mo bf_dir rand)^[mm] s).reverted ∨ s.it + mm = it_max) ∧
        (∀ j, 1 ≤ j → j < mm → ((bfBody mo bf_dir rand)^[j] s).reverted < forcing) := by
  intro fuel
  induction fuel with
  | zero => intro s h0 hlt; omega
  | succ f ih =>
      intro s hfuel hlt
      have hit1 : (bfBody mo bf_dir rand s).it = s.it + 1 := bfBody_it mo bf_dir rand s
      by_cases hcont : (bfBody mo bf_dir rand s).reverted < forcing ∧
          (bfBody mo bf_dir rand s).it < it_max
      · obtain ⟨mm, h1m, heq, hitm, hle, hexit, hmin⟩ :=
          ih (bfBody mo bf_dir rand s) (by omega) hcont.2
        refine ⟨mm + 1, by omega, ?_, ?_, by omega, ?_, ?_⟩
        · rw [bfRun_succ, if_pos hcont, heq, Function.iterate_succ_apply]
        · rw [Function.iterate_succ_apply, hitm, hit1]
          omega
        · rw [Function.iterate_succ_apply]
          rcases hexit with h | h
          · exact Or.inl h
          · right; omega
        · intro j hj1 hjm
          rcases Nat.exists_eq_add_of_le hj1 with ⟨j0, rfl⟩
          match j0 with
          | 0 =>
              simpa [Function.iterate_one] using hcont.1
          | j1 + 1 =>
              rw [show 1 + (j1 + 1) = (j1 + 1) + 1 by omega, Function.iterate_succ_apply]
              exact hmin (j1 + 1) (by omega) (by omega)
      · refine ⟨1, le_refl 1, ?_, ?_, by omega, ?_, ?_⟩
        · rw [bfRun_succ, if_neg hcont, Function.iterate_one]
        · rw [Function.iterate_one]; omega
        · rw [Function.iterate_one]
          rcases Nat.lt_or_ge (bfBody mo bf_dir rand s).reverted forcing with h | h
          · right
            have : ¬ (bfBody mo bf_dir rand s).it < it_max := fun hh => hcont ⟨h, hh⟩
            omega
          · exact Or.inl h
        · intro j hj1 hj2; omega

/-- C5: `apply_body_force` terminates for every input: the loop performs
`it` body executions with `it <= 2N`, stops exactly when the reverted
counter has reached `forcing` or the iteration count has reached `2N`
(whichever happens first: at every earlier iteration boundary the
counter was still below the target), and reaching the bound early is a
normal return, not an error. -/
theorem C5_body_force_terminates (mo : Model) (bf_dir : Char) (rand : Nat → Nat)
    (forcing : Nat) (st : OMP_Lattice) (h : 0 < num_cells st) :
    (apply_body_force mo bf_dir rand forcing st).it ≤ 2 * num_cells st ∧
    (forcing ≤ (apply_body_force mo bf_dir rand forcing st).reverted ∨
      (apply_body_force mo bf_dir rand forcing st).it = 2 * num_cells st) ∧
    apply_body_force mo bf_dir rand forcing st =
      (bfBody mo bf_dir rand)^[(apply_body_force mo bf_dir rand forcing st).it] ⟨st, 0, 0⟩ ∧
    (∀ j, 1 ≤ j → j < (apply_body_force mo bf_dir rand forcing st).it →
      ((bfBody mo bf_dir rand)^[j] ⟨st, 0, 0⟩).reverted < forcing) := by
  obtain ⟨mm, h1m, heq, hitm, hle, hexit, hmin⟩ :=
    bfRun_exit mo bf_dir rand forcing (2 * num_cells st) (2 * num_cells st)
      ⟨st, 0, 0⟩ rfl (show (0 : Nat) < 2 * num_cells st by omega)
  have habf : apply_body_force mo bf_dir rand forcing st =
      (bfBody mo bf_dir rand)^[mm] ⟨st, 0, 0⟩ := heq
  have hle' : mm ≤ 2 * num_cells st := by simpa using hle
  have hit : (apply_body_force mo bf_dir rand forcing st).it = mm := by
    rw [habf, hitm]
    exact Nat.zero_add mm
  refine ⟨?_, ?_, ?_, ?_⟩
  · rw [hit]; exact hle'
  · rcases hexit with hx | hx
    · left; rw [habf]; exact hx
    · right
      rw [hit]
      simpa using hx
  · rw [hit]; exact habf
  · intro j hj1 hj2
    rw [hit] at hj2
    exact hmin j hj1 hj2

/-- C5 witness: the termination theorem instantiated on the 1 by 1 fluid
lattice with target 0. -/
theorem C5_body_force_terminates_witness :
    (apply_body_force Model.HPP 'x' (fun _ => 0) 0 st1f).it ≤ 2 * num_cells st1f :=
  (C5_body_force_terminates Model.HPP 'x' (fun _ => 0) 0 st1f (by decide)).1

/-- The largest number of reverted-particle increments one body
execution can make: 2 for an FHP model forced along y (both diagonal
pairs can swap in a single visit), 1 otherwise. -/
def bfMaxInc (mo : Model) (bf_dir : Char) : Nat :=
  if mo = Model.HPP then 1 else if bf_dir = 'y' then 2 else 1

lemma bfInc_le (mo : Model) (bf_dir : Char) (ns : Nat → Bool) :
    bfInc mo bf_dir ns ≤ bfMaxInc mo bf_dir := by
  unfold bfInc bfMaxInc
  by_cases hmo : mo = Model.HPP <;> simp [hmo] <;> split_ifs <;> omega

lemma bfBody_reverted_le (mo : Model) (bf_dir : Char) (rand : Nat → Nat) (s : BFState) :
    (bfBody mo bf_dir rand s).reverted ≤ s.reverted + bfMaxInc mo bf_dir := by
  unfold bfBody
  dsimp only
  split
  · exact Nat.add_le_add_left (bfInc_le mo bf_dir _) _
  · exact Nat.le_add_right _ _

lemma bfRun_reverted_le (mo : Model) (bf_dir : Char) (rand : Nat → Nat)
    (forcing it_max : Nat) :
    ∀ (fuel : Nat) (s : BFState), s.reverted = 0 ∨ s.reverted < forcing →
      (bfRun mo bf_dir rand forcing it_max fuel s).reverted ≤
        forcing + bfMaxInc mo bf_dir := by
  intro fuel
  induction fuel with
  | zero =>
      intro s hs
      rw [bfRun_zero]
      have := bfBody_reverted_le mo bf_dir rand s
      rcases hs with h | h <;> omega
  | succ f ih =>
      intro s hs
      rw [bfRun_succ]
      split
      · next hcont => exact ih _ (Or.inr hcont.1)
      · have := bfBody_reverted_le mo bf_dir rand s
        rcases hs with h | h <;> omega

/-- C6 (amended): one call to `apply_body_force` performs at most
`forcing + 1` swaps for HPP (either axis) and FHP along x, and at most
`forcing + 2` for FHP along y: the do-while body executes at least once
before the exit test, so `forcing = 0` does not guarantee zero swaps,
and each body execution adds at most `bfMaxInc` swaps. -/
theorem C6_reverted_bound (mo : Model) (bf_dir : Char) (rand : Nat → Nat)
    (forcing : Nat) (st : OMP_Lattice) :
    (apply_body_force mo bf_dir rand forcing st).reverted ≤
      forcing + bfMaxInc mo bf_dir :=
  bfRun_reverted_le mo bf_dir rand forcing (2 * num_cells st) (2 * num_cells st)
    ⟨st, 0, 0⟩ (Or.inl rfl)

/-- C6 counterexample: with target `forcing = 0`, on the 1 by 1 HPP
lattice whose fluid cell has direction 2 occupied and direction 0 free,
the call still reverts one particle, so the swap count exceeds the
target. -/
theorem C6_forcing_zero_cex :
    (apply_body_force Model.HPP 'x' (fun _ => 0) 0 st1f).reverted = 1 := by
  decide

lemma foldl_add_eq_sum (f : Nat → ℚ) :
    ∀ (n : Nat) (a : ℚ),
      (List.range n).foldl (fun acc d => acc + f d) a = a + ∑ d ∈ Finset.range n, f d := by
  intro n
  induction n with
  | zero => intro a; simp
  | succ k ih =>
      intro a
      rw [List.range_succ, List.foldl_append, ih a]
      simp [Finset.sum_range_succ]
      ring

/-- Per-cell density accumulated by the direction loop of
`cell_post_process`, reading the dedicated output node buffer
`m_node_state_out_cpu`. -/
def cpp_density (m : ModelDesc) (st : OMP_Lattice) (cell : Int) : ℚ :=
  (List.range m.num_dir).foldl
    (fun acc dir => acc + (if st.node_state_out cell dir then 1 else 0)) 0

/-- Per-cell x momentum accumulated by the direction loop of
`cell_post_process`. -/
def cpp_momentum_x (m : ModelDesc) (st : OMP_Lattice) (cell : Int) : ℚ :=
  (List.range m.num_dir).foldl
    (fun acc dir => acc + (if st.node_state_out cell dir then (1 : ℚ) else 0) * m.lattice_vec_x dir) 0

/-- Per-cell y momentum accumulated by the direction loop of
`cell_post_process`. -/
def cpp_momentum_y (m : ModelDesc) (st : OMP_Lattice) (cell : Int) : ℚ :=
  (List.range m.num_dir).foldl
    (fun acc dir => acc + (if st.node_state_out cell dir then (1 : ℚ) else 0) * m.lattice_vec_y dir) 0

/-- The per-cell post-process pass: every cell of `[0, num_cells)` gets
its density and momentum written from the output node buffer; no node
state buffer is touched. -/
def cell_post_process (m : ModelDesc) (st : OMP_Lattice) : OMP_Lattice :=
  { st with
    cell_density := fun c =>
      if 0 ≤ c ∧ c < (num_cells st : Int) then cpp_density m st c else st.cell_density c,
    cell_momentum_x := fun c =>
      if 0 ≤ c ∧ c < (num_cells st : Int) then cpp_momentum_x m st c else st.cell_momentum_x c,
    cell_momentum_y := fun c =>
      if 0 ≤ c ∧ c < (num_cells st : Int) then cpp_momentum_y m st c else st.cell_momentum_y c }

/-- C9: the per-cell pass stores the popcount of the cell's node pattern
(read from the dedicated output buffer) as its density and the sum of
occupied lattice vectors as its momentum, and never mutates any node
state buffer. -/
theorem C9_cell_post_process (m : ModelDesc) (st : OMP_Lattice) (c : Nat)
    (hc : c < num_cells st) :
    (cell_post_process m st).cell_density (c : Int) =
      (((Finset.range m.num_dir).filter
        (fun d => st.node_state_out (c : Int) d = true)).card : ℚ) ∧
    (cell_post_process m st).cell_momentum_x (c : Int) =
      ∑ d ∈ Finset.range m.num_dir,
        (if st.node_state_out (c : Int) d then (1 : ℚ) else 0) * m.lattice_vec_x d ∧
    (cell_post_process m st).cell_momentum_y (c : Int) =
      ∑ d ∈ Finset.range m.num_dir,
        (if st.node_state_out (c : Int) d then (1 : ℚ) else 0) * m.lattice_vec_y d ∧
    (cell_post_process m st).node_state = st.node_state ∧
    (cell_post_process m st).node_state_tmp = st.node_state_tmp ∧
    (cell_post_process m st).node_state_out = st.node_state_out := by
  have hcond : (0 : Int) ≤ (c : Int) ∧ (c : Int) < (num_cells st : Int) :=
    ⟨Int.ofNat_nonneg c, by exact_mod_cast hc⟩
  refine ⟨?_, ?_, ?_, rfl, rfl, rfl⟩
  · show (if _ then cpp_density m st (c : Int) else _) = _
    rw [if_pos hcond, cpp_density, foldl_add_eq_sum, zero_add, Finset.sum_boole]
  · show (if _ then cpp_momentum_x m st (c : Int) else _) = _
    rw [if_pos hcond, cpp_momentum_x,
        foldl_add_eq_sum (fun d => (if st.node_state_out (c : Int) d then (1 : ℚ) else 0) * m.lattice_vec_x d),
        zero_add]
  · show (if _ then cpp_momentum_y m st (c : Int) else _) = _
    rw [if_pos hcond, cpp_momentum_y,
        foldl_add_eq_sum (fun d => (if st.node_state_out (c : Int) d then (1 : ℚ) else 0) * m.lattice_vec_y d),
        zero_add]

/-- C9 witness: the per-cell pass instantiated on the 1 by 1 HPP fluid
lattice. -/
theorem C9_cell_post_process_witness :
    (cell_post_process (hppDesc 1 1) st1f).cell_density 0 =
      (((Finset.range 4).filter (fun d => st1f.node_state_out 0 d = true)).card : ℚ) :=
  (C9_cell_post_process (hppDesc 1 1) st1f 0 (by decide)).1

/-- The fine cell taken as the bottom-left corner of a coarse cell's
window: `(coarse_cell % m_coarse_dim_x) * (2r) + (coarse_cell / m_coarse_dim_x) * (2r) * m_dim_x`
(line 406 of omp_lattice.cpp). -/
def mpp_start_cell (st : OMP_Lattice) (coarse_cell : Nat) : Nat :=
  (coarse_cell % coarse_dim_x st) * (2 * st.coarse_graining_radius)
    + (coarse_cell / coarse_dim_x st) * (2 * st.coarse_graining_radius) * st.dim_x

/-- The window accumulation of `mean_post_process`: sums of density and
momentum over the existing window neighbors, and their count. -/
def mpp_acc (st : OMP_Lattice) (coarse_cell : Nat) : ℚ × ℚ × ℚ × Nat :=
  let r := st.coarse_graining_radius
  let cell := mpp_start_cell st coarse_cell
  let pos_x := cell % st.dim_x
  (List.range (2 * r + 1)).foldl (fun acc y =>
    (List.range (2 * r + 1)).foldl (fun acc2 x =>
      let neighbor_idx := cell + y * st.dim_x + x
      let pos_x_neighbor := neighbor_idx % st.dim_x
      if neighbor_idx < num_cells st ∧
          ((pos_x_neighbor : Int) - (pos_x : Int)).natAbs ≤ r then
        (acc2.1 + st.cell_density (neighbor_idx : Int),
         acc2.2.1 + st.cell_momentum_x (neighbor_idx : Int),
         acc2.2.2.1 + st.cell_momentum_y (neighbor_idx : Int),
         acc2.2.2.2 + 1)
      else acc2) acc) (0, 0, 0, 0)

/-- The coarse-graining pass: every coarse cell gets the window sums
divided by the number of existing neighbors. -/
def mean_post_process (st : OMP_Lattice) : OMP_Lattice :=
  { st with
    mean_density := fun C =>
      if 0 ≤ C ∧ C < (num_coarse_cells st : Int)
      then (mpp_acc st C.toNat).1 / (((mpp_acc st C.toNat).2.2.2 : Nat) : ℚ)
      else st.mean_density C,
    mean_momentum_x := fun C =>
      if 0 ≤ C ∧ C < (num_coarse_cells st : Int)
      then (mpp_acc st C.toNat).2.1 / (((mpp_acc st C.toNat).2.2.2 : Nat) : ℚ)
      else st.mean_momentum_x C,
    mean_momentum_y := fun C =>
      if 0 ≤ C ∧ C < (num_coarse_cells st : Int)
      then (mpp_acc st C.toNat).2.2.1 / (((mpp_acc st C.toNat).2.2.2 : Nat) : ℚ)
      else st.mean_momentum_y C }

/-- C1 (what the code does): with coarse-graining radius 0 the window
start collapses to fine cell 0 for every coarse cell, so the coarse
fields all copy the fields of cell 0 instead of their own cell. -/
theorem C1_r0_mean_is_cell0 (st : OMP_Lattice) (hr : st.coarse_graining_radius = 0)
    (hN : 0 < num_cells st) (C : Nat) (hC : C < num_coarse_cells st) :
    (mean_post_process st).mean_density (C : Int) = st.cell_density 0 ∧
    (mean_post_process st).mean_momentum_x (C : Int) = st.cell_momentum_x 0 ∧
    (mean_post_process st).mean_momentum_y (C : Int) = st.cell_momentum_y 0 := by
  have hcond : (0 : Int) ≤ (C : Int) ∧ (C : Int) < (num_coarse_cells st : Int) :=
    ⟨Int.ofNat_nonneg C, by exact_mod_cast hC⟩
  have hstart : mpp_start_cell st C = 0 := by
    simp [mpp_start_cell, hr]
  have ht : ((C : Int)).toNat = C := Int.toNat_natCast C
  have hacc : mpp_acc st ((C : Int)).toNat =
      (st.cell_density 0, st.cell_momentum_x 0, st.cell_momentum_y 0, 1) := by
    rw [ht]
    unfold mpp_acc
    rw [hr, hstart]
    simp [List.range_succ, hN]
  refine ⟨?_, ?_, ?_⟩
  · show (if _ then (mpp_acc st ((C : Int)).toNat).1 / _ else _) = _
    rw [if_pos hcond, hacc]
    norm_num
  · show (if _ then (mpp_acc st ((C : Int)).toNat).2.1 / _ else _) = _
    rw [if_pos hcond, hacc]
    norm_num
  · show (if _ then (mpp_acc st ((C : Int)).toNat).2.2.1 / _ else _) = _
    rw [if_pos hcond, hacc]
    norm_num

/-- A 2 by 1 all-FLUID lattice with radius 0 whose derived fields are 0
at cell 0 and 1 at cell 1 (density and x momentum). -/
def st21 : OMP_Lattice :=
  mkLat 2 1 0 (fun _ => CellType.FLUID) (fun _ _ => false) (fun _ _ => false)
    (fun c => if c = 1 then 1 else 0) (fun c => if c = 1 then 1 else 0) (fun _ => 0)

/-- C1 witness: at radius 0 on the 2 by 1 lattice, coarse cell 1 gets
the density of fine cell 0 (namely 0) although fine cell 1 has
density 1. -/
theorem C1_r0_mean_is_cell0_witness :
    (mean_post_process st21).mean_density 1 = st21.cell_density 0 ∧
    st21.cell_density 0 = 0 ∧ st21.cell_density 1 = 1 :=
  ⟨(C1_r0_mean_is_cell0 st21 rfl (by decide) 1 (by decide)).1, by decide, by decide⟩

/-- One iteration of the reduction loop of `get_mean_velocity`: every
FLUID cell bumps the counter; only FLUID cells with density above 1e-6
contribute `momentum / density` to the sums. -/
def gmv_body (st : OMP_Lattice) (acc : ℚ × ℚ × Nat) (n : Nat) : ℚ × ℚ × Nat :=
  if st.cell_type (n : Int) = CellType.FLUID then
    if st.cell_density (n : Int) > 1 / 1000000 then
      (acc.1 + st.cell_momentum_x (n : Int) / st.cell_density (n : Int),
       acc.2.1 + st.cell_momentum_y (n : Int) / st.cell_density (n : Int),
       acc.2.2 + 1)
    else (acc.1, acc.2.1, acc.2.2 + 1)
  else acc

/-- The reduction of `get_mean_velocity`: velocity sums and the fluid
cell counter. -/
def gmv_acc (st : OMP_Lattice) : ℚ × ℚ × Nat :=
  (List.range (num_cells st)).foldl (gmv_body st) (0, 0, 0)

/-- The global mean velocity: the sums divided by the counter. -/
def get_mean_velocity (st : OMP_Lattice) : ℚ × ℚ :=
  ((gmv_acc st).1 / (((gmv_acc st).2.2 : Nat) : ℚ),
   (gmv_acc st).2.1 / (((gmv_acc st).2.2 : Nat) : ℚ))

/-- Number of FLUID cells of the lattice. -/
def fluid_count (st : OMP_Lattice) : Nat :=
  ((Finset.range (num_cells st)).filter
    (fun n : Nat => st.cell_type (n : Int) = CellType.FLUID)).card

/-- Number of contributing cells: FLUID cells with density above 1e-6. -/
def contrib_count (st : OMP_Lattice) : Nat :=
  ((Finset.range (num_cells st)).filter
    (fun n : Nat => st.cell_type (n : Int) = CellType.FLUID ∧
      st.cell_density (n : Int) > 1 / 1000000)).card

/-- Sum of the x velocity components over the contributing cells. -/
def gmv_sum_x (st : OMP_Lattice) : ℚ :=
  ∑ n ∈ (Finset.range (num_cells st)).filter
      (fun n : Nat => st.cell_type (n : Int) = CellType.FLUID ∧
        st.cell_density (n : Int) > 1 / 1000000),
    st.cell_momentum_x (n : Int) / st.cell_density (n : Int)

/-- Sum of the y velocity components over the contributing cells. -/
def gmv_sum_y (st : OMP_Lattice) : ℚ :=
  ∑ n ∈ (Finset.range (num_cells st)).filter
      (fun n : Nat => st.cell_type (n : Int) = CellType.FLUID ∧
        st.cell_density (n : Int) > 1 / 1000000),
    st.cell_momentum_y (n : Int) / st.cell_density (n : Int)

lemma gmv_foldl_eq (st : OMP_Lattice) :
    ∀ n : Nat,
      (List.range n).foldl (gmv_body st) (0, 0, 0) =
        (∑ k ∈ (Finset.range n).filter
            (fun k : Nat => st.cell_type (k : Int) = CellType.FLUID ∧
              st.cell_density (k : Int) > 1 / 1000000),
          st.cell_momentum_x (k : Int) / st.cell_density (k : Int),
         ∑ k ∈ (Finset.range n).filter
            (fun k : Nat => st.cell_type (k : Int) = CellType.FLUID ∧
              st.cell_density (k : Int) > 1 / 1000000),
          st.cell_momentum_y (k : Int) / st.cell_density (k : Int),
         ((Finset.range n).filter
            (fun k : Nat => st.cell_type (k : Int) = CellType.FLUID)).card) := by
  intro n
  induction n with
  | zero => simp
  | succ k ih =>
      rw [List.range_succ, List.foldl_append, ih, List.foldl_cons, List.foldl_nil]
      have hsplit : ∀ g : Nat → ℚ,
          ∑ x ∈ (Finset.range (k + 1)).filter
              (fun j : Nat => st.cell_type (j : Int) = CellType.FLUID ∧
                st.cell_density (j : Int) > 1 / 1000000), g x =
            (∑ x ∈ (Finset.range k).filter
              (fun j : Nat => st.cell_type (j : Int) = CellType.FLUID ∧
                st.cell_density (j : Int) > 1 / 1000000), g x)
              + (if st.cell_type (k : Int) = CellType.FLUID ∧
                  st.cell_density (k : Int) > 1 / 1000000 then g k else 0) := by
        intro g
        rw [Finset.sum_filter, Finset.sum_range_succ, ← Finset.sum_filter]
      have hcard :
          ((Finset.range (k + 1)).filter
            (fun j : Nat => st.cell_type (j : Int) = CellType.FLUID)).card =
            ((Finset.range k).filter
              (fun j : Nat => st.cell_type (j : Int) = CellType.FLUID)).card
              + (if st.cell_type (k : Int) = CellType.FLUID then 1 else 0) := by
        rw [Finset.card_filter, Finset.sum_range_succ, ← Finset.card_filter]
      rw [hsplit (fun x => st.cell_momentum_x (x : Int) / st.cell_density (x : Int)),
          hsplit (fun x => st.cell_momentum_y (x : Int) / st.cell_density (x : Int)),
          hcard]
      unfold gmv_body
      by_cases hF : st.cell_type (k : Int) = CellType.FLUID
      · by_cases hD : st.cell_density (k : Int) > 1 / 1000000
        · rw [if_pos hF, if_pos hD, if_pos (⟨hF, hD⟩ : _ ∧ _),
              if_pos (⟨hF, hD⟩ : _ ∧ _), if_pos hF]
        · rw [if_pos hF, if_neg hD,
              if_neg (fun hh : _ ∧ _ => hD hh.2), if_neg (fun hh : _ ∧ _ => hD hh.2),
              if_pos hF]
          simp
      · rw [if_neg hF,
            if_neg (fun hh : _ ∧ _ => hF hh.1), if_neg (fun hh : _ ∧ _ => hF hh.1),
            if_neg hF]
        simp

lemma gmv_acc_eq (st : OMP_Lattice) :
    gmv_acc st = (gmv_sum_x st, gmv_sum_y st, fluid_count st) :=
  gmv_foldl_eq st (num_cells st)

/-- C2 (amended): `get_mean_velocity` accumulates `momentum / density`
over exactly the FLUID cells whose density exceeds 1e-6, but divides the
sums by the count of all FLUID cells (the counter is bumped before the
density test), not by the count of contributing cells. -/
theorem C2_mean_velocity_divisor (st : OMP_Lattice) :
    get_mean_velocity st =
      (gmv_sum_x st / ((fluid_count st : Nat) : ℚ),
       gmv_sum_y st / ((fluid_count st : Nat) : ℚ)) := by
  rw [get_mean_velocity, gmv_acc_eq]

/-- Follows the spec's words (for comparison with the code): the mean
velocity obtained by dividing the sums by the count of contributing
fluid cells. -/
def get_mean_velocity_spec (st : OMP_Lattice) : ℚ × ℚ :=
  (gmv_sum_x st / ((contrib_count st : Nat) : ℚ),
   gmv_sum_y st / ((contrib_count st : Nat) : ℚ))

/-- C2 counterexample: on the 2 by 1 fluid lattice with densities 0 and
1, the code divides by 2 (all fluid cells) and returns x velocity 1/2,
while the claimed divisor (contributing cells, here 1) would return 1. -/
theorem C2_mean_velocity_divisor_cex :
    get_mean_velocity st21 ≠ get_mean_velocity_spec st21 := by
  have h1 : gmv_acc st21 = (1, 0, 2) := by
    norm_num [gmv_acc, gmv_body, num_cells, st21, mkLat, List.range_succ]
  have h3 : (((1 : ℚ), (0 : ℚ), (2 : Nat)) : ℚ × ℚ × Nat) =
      (gmv_sum_x st21, gmv_sum_y st21, fluid_count st21) := by
    rw [← h1, gmv_acc_eq]
  have hsx : gmv_sum_x st21 = 1 := by
    have := congrArg (fun p : ℚ × ℚ × Nat => p.1) h3
    simpa using this.symm
  have h2 : contrib_count st21 = 1 := by
    norm_num [contrib_count, num_cells, st21, mkLat, Finset.range_succ,
      Finset.filter_insert, Finset.range_one, Finset.filter_singleton,
      Finset.range_zero, Finset.filter_empty]
  rw [get_mean_velocity, h1, get_mean_velocity_spec, hsx, h2]
  rintro h
  have hx := congrArg (fun p : ℚ × ℚ => p.1) h
  norm_num at hx

/-- C10: the final division of `get_mean_velocity` is unguarded: when no
FLUID cell exists the counter is zero and the sums are still divided by
zero; when at least one FLUID cell exists the divisor is strictly
positive. -/
theorem C10_counter_guard (st : OMP_Lattice) :
    ((∀ n, n < num_cells st → st.cell_type (n : Int) ≠ CellType.FLUID) →
      (gmv_acc st).2.2 = 0 ∧
      get_mean_velocity st =
        ((gmv_acc st).1 / (((0 : Nat) : ℚ)), (gmv_acc st).2.1 / (((0 : Nat) : ℚ))))
    ∧ ((∃ n, n < num_cells st ∧ st.cell_type (n : Int) = CellType.FLUID) →
      0 < (gmv_acc st).2.2) := by
  have hcnt : (gmv_acc st).2.2 = fluid_count st := by rw [gmv_acc_eq]
  constructor
  · intro hno
    have h0 : fluid_count st = 0 := by
      unfold fluid_count
      rw [Finset.card_eq_zero, Finset.filter_eq_empty_iff]
      intro n hn
      exact hno n (Finset.mem_range.mp hn)
    refine ⟨by rw [hcnt, h0], ?_⟩
    rw [get_mean_velocity, hcnt, h0]
  · rintro ⟨n, hn, hf⟩
    rw [hcnt]
    unfold fluid_count
    rw [Finset.card_pos]
    exact ⟨n, Finset.mem_filter.mpr ⟨Finset.mem_range.mpr hn, hf⟩⟩

/-- C10 witness: the 1 by 1 fluid lattice has a strictly positive
divisor. -/
theorem C10_counter_guard_witness : 0 < (gmv_acc st1f).2.2 :=
  (C10_counter_guard st1f).2 ⟨0, by decide, rfl⟩

end lgca
